import Mathlib

/-!
Verification development for the dumble bundler pipeline.

The definitions below are a shallow embedding of the TypeScript sources:
the dependency classifier and relative-import resolver of the esbuild
plugin (`externalPlugin`), the export-map expansion (`resolvePattern`,
`addExport`, `addConditionalExport`, `dumble`), and the diagnostics /
exit-status handling.  Paths are POSIX strings; `node:path` functions and
the JavaScript string operations used by the source are modelled
explicitly.  Filesystem globbing (`globby`) is an external collaborator
and is passed in as a function from (pattern, directory) to the list of
matching relative paths.
-/

set_option maxRecDepth 4000

namespace Dumble

/-- JS `s.startsWith(p)`. -/
def jsStartsWith (s p : String) : Bool :=
  p.data.isPrefixOf s.data

/-- JS `s.endsWith(p)`. -/
def jsEndsWith (s p : String) : Bool :=
  p.data.isSuffixOf s.data

/-- Structural single-character split (JS `s.split(c)` /
`String.splitOn` with a one-character separator). -/
def splitChar (sep : Char) : List Char → List (List Char)
  | [] => [[]]
  | x :: xs =>
    match splitChar sep xs with
    | [] => [[]]
    | grp :: rest => if x = sep then [] :: grp :: rest else (x :: grp) :: rest

/-- `s.split(sep)` as a list of strings. -/
def jsSplit (s : String) (sep : Char) : List String :=
  (splitChar sep s.data).map String.mk

/-- Substring search on character lists. -/
def containsSub : List Char → List Char → Bool
  | hay, pat =>
    if pat.isPrefixOf hay then true
    else match hay with
      | [] => pat.isEmpty
      | _ :: t => containsSub t pat

/-- JS `s.includes(p)` (substring test). -/
def jsIncludes (s p : String) : Bool :=
  containsSub s.data p.data

/-- JS `s.slice(start, -negEnd)` restricted to the uses in the source
(drop a suffix of `negEnd` characters and a prefix of `start` characters).
JS normalises `-0` to `0`, so `negEnd = 0` yields the empty string. -/
def jsSliceNeg (s : String) (start negEnd : Nat) : String :=
  if negEnd = 0 then ("") else String.mk ((s.data.take (s.data.length - negEnd)).drop start)

/-- JS `s.slice(n)`. -/
def jsDrop (s : String) (n : Nat) : String :=
  String.mk (s.data.drop n)

/-- JS `s.replace('*', '**')`: string-valued patterns replace only the
first occurrence. -/
def replaceStarOnce (s : String) : String :=
  match jsSplit s '*' with
  | [] => s
  | [_] => s
  | a :: rest => a ++ ("**") ++ String.intercalate ("*") rest

/-- JS `s.replace(/\\/g, '/')` (used to normalise Windows separators). -/
def slashify (s : String) : String :=
  String.mk (s.data.map (fun c => if c = '\\' then '/' else c))

/-- JS `ext.replace(/js$/, 'ts')`. -/
def replaceJsTs (ext : String) : String :=
  if jsEndsWith ext ("js") then String.mk (ext.data.take (ext.data.length - 2)) ++ ("ts") else ext

/-- `JSON.stringify` on a string value. -/
def jsonStringifyStr (v : String) : String :=
  ("\"") ++ String.mk (v.data.flatMap (fun c => if c = '"' || c = '\\' then ['\\', c] else [c])) ++ ("\"")

/-- `node:path` `extname`: suffix of the basename from its last dot,
empty when the basename has no dot or only a leading dot. -/
def extname (s : String) : String :=
  let b := (jsSplit s '/').getLastD ("")
  match jsSplit b '.' with
  | [] => ("")
  | [_] => ("")
  | [p, q] => if p = ("") then ("") else (".") ++ q
  | parts => (".") ++ parts.getLastD ("")

/-- `node:path` `dirname`. -/
def dirname (s : String) : String :=
  let parts := jsSplit s '/'
  match parts with
  | [] => (".")
  | [_] => (".")
  | _ =>
    let front := parts.dropLast
    if front.all (· = ("")) then ("/") else String.intercalate ("/") front

/-- One pass of `node:path` normalisation over the segments of a path:
drops empty and `.` segments and resolves `..` against earlier segments
(discarding it at the root of an absolute path). -/
def normCore (isAbs : Bool) : List String → List String → List String
  | acc, [] => acc.reverse
  | acc, seg :: rest =>
    if seg = ("") || seg = (".") then normCore isAbs acc rest
    else if seg = ("..") then
      match acc with
      | [] => if isAbs then normCore isAbs [] rest else normCore isAbs [("..")] rest
      | top :: acc' =>
        if top = ("..") then normCore isAbs (seg :: top :: acc') rest
        else normCore isAbs acc' rest
    else normCore isAbs (seg :: acc) rest

/-- `node:path` `normalize` (without trailing-slash preservation, which the
source never relies on). -/
def nodeNormalize (s : String) : String :=
  let isAbs := jsStartsWith s ("/")
  let segs := normCore isAbs [] (jsSplit s '/')
  if isAbs then ("/") ++ String.intercalate ("/") segs
  else if segs = [] then (".") else String.intercalate ("/") segs

/-- `node:path` `join`. -/
def nodeJoin (parts : List String) : String :=
  let ps := parts.filter (· ≠ (""))
  if ps = [] then (".") else nodeNormalize (String.intercalate ("/") ps)

/-- `node:path` `resolve(base, p)` with `base` absolute (in the source the
base is always the already-absolute working directory). -/
def resolveAbs (base p : String) : String :=
  if jsStartsWith p ("/") then nodeNormalize p else nodeNormalize (base ++ ("/") ++ p)

/-- Segments of an absolute, normalised path. -/
def absSegs (s : String) : List String :=
  (jsSplit s '/').filter (· ≠ (""))

/-- Length of the common prefix of two segment lists. -/
def commonPrefixLen : List String → List String → Nat
  | a :: as', b :: bs' => if a = b then commonPrefixLen as' bs' + 1 else 0
  | _, _ => 0

/-- `node:path` `relative(f, t)`: both arguments are resolved against the
process working directory `base`, then the path from one to the other is
built from `..` segments and the remainder of the target. -/
def nodeRelative (base f t : String) : String :=
  let fs := absSegs (resolveAbs base f)
  let ts := absSegs (resolveAbs base t)
  let c := commonPrefixLen fs ts
  String.intercalate ("/") (List.replicate (fs.length - c) ("..") ++ ts.drop c)

/-- Association-list lookup with string keys (JS object property read). -/
def lookupKey {α : Type} : List (String × α) → String → Option α
  | [], _ => none
  | (k, v) :: rest, key => if k = key then some v else lookupKey rest key

/-- Association-list update (JS object property write): overwrite the
first binding of the key, otherwise append a new binding. -/
def setKey {α : Type} : List (String × α) → String → α → List (String × α)
  | [], key, v => [(key, v)]
  | (k, w) :: rest, key, v =>
    if k = key then (k, v) :: rest else (k, w) :: setKey rest key v

/-- The `ExportRegistry`: absolute source file path to a mapping from
platform tag (or `types` / `default`) to output path. -/
def Registry : Type := List (String × List (String × String))

instance : DecidableEq Registry := by
  unfold Registry
  infer_instance

/-- `(exports[srcFile] ||= {})[slot] = val`. -/
def setSlot (reg : Registry) (file slot val : String) : Registry :=
  match lookupKey reg file with
  | none => setKey reg file [(slot, val)]
  | some e => setKey reg file (setKey e slot val)

/-- `exports[file] = { default: file }` (whole-entry assignment). -/
def setDefaultEntry (reg : Registry) (file : String) : Registry :=
  setKey reg file [(("default"), file)]

/-- JS truthiness of an optional string (`undefined` and `""` are falsy). -/
def jsTruthyStr : Option String → Bool
  | none => false
  | some s => s ≠ ("")

/-- JS `a || b` on optional strings. -/
def jsOrStr (a b : Option String) : Option String :=
  if jsTruthyStr a then a else b

/-- The four dependency kinds, in the order declared by the source's
`DependencyType` constant. -/
def DependencyType : List String :=
  [("dependencies"), ("devDependencies"), ("peerDependencies"), ("optionalDependencies")]

mutual
/-- A conditional export declaration (`PackageJson.Exports`): a literal
path pattern or an ordered mapping of condition keys to nested
declarations. -/
inductive Exports where
  | str : String → Exports
  | map : ExportsMap → Exports
  deriving DecidableEq
/-- Ordered key/value entries of a conditional export object (JS objects
preserve insertion order for the string keys used here). -/
inductive ExportsMap where
  | nil : ExportsMap
  | cons : String → Exports → ExportsMap → ExportsMap
  deriving DecidableEq
end

/-- The `bin` field: a single path or a table of command name to path. -/
inductive Bin where
  | str : String → Bin
  | table : List (String × String) → Bin
  deriving DecidableEq

/-- The package manifest (`PackageJson`), restricted to the fields the
build pipeline reads.  Dependency records keep their version strings
because the classifier tests JS truthiness of `manifest[kind][name]`. -/
structure PackageJson where
  name : String
  type? : Option String := none
  main? : Option String := none
  module? : Option String := none
  bin? : Option Bin := none
  exports? : Option Exports := none
  dependencies : List (String × String) := []
  devDependencies : List (String × String) := []
  peerDependencies : List (String × String) := []
  optionalDependencies : List (String × String) := []

/-- Dependency record of a given kind. -/
def depsOf (m : PackageJson) (ty : String) : List (String × String) :=
  if ty = ("dependencies") then m.dependencies
  else if ty = ("devDependencies") then m.devDependencies
  else if ty = ("peerDependencies") then m.peerDependencies
  else if ty = ("optionalDependencies") then m.optionalDependencies
  else []

/-- JS truthiness of `manifest[ty]?.[name]`. -/
def hasDep (m : PackageJson) (ty name : String) : Bool :=
  jsTruthyStr (lookupKey (depsOf m ty) name)

/-- The compiler configuration fields the pipeline reads from
`tsconfig.compilerOptions`. -/
structure TsConfig where
  rootDir? : Option String := none
  outDir? : Option String := none
  outFile? : Option String := none
  target? : Option String := none
  noEmit : Bool := false
  emitDeclarationOnly : Bool := false
  sourceMap : Option Bool := none

/-- Invocation options of `dumble`. -/
structure Options where
  minify : Option Bool := none
  env : List (String × String) := []

/-- The running format/platform preset threaded through export expansion. -/
structure Preset where
  platform : Option String := none
  format : Option String := none
  deriving DecidableEq

/-- One esbuild invocation as assembled by `matrix.push` (the plugin
closures are modelled separately as the resolver functions below). -/
structure BuildTask where
  absWorkingDir : String
  outdir : String
  outbase : String
  target : Option String
  outExtension : String
  entryName : String
  srcFile : String
  bundle : Bool
  minify : Option Bool
  sourcemap : Option Bool
  sourcesContent : Bool
  keepNames : Bool
  charset : String
  logLevel : String
  resolveExtensions : List String
  tsconfigPath : String
  define : List (String × String)
  format : Option String
  platform : Option String
  deriving DecidableEq

/-- Mutable state of one `dumble` run: the task matrix, the export
registry, the set of already-claimed output files and the binary list. -/
structure St where
  matrix : List BuildTask
  exports : Registry
  outFiles : List String
  binaries : List String
  deriving DecidableEq

/-- Regex `/^[@\w].+$/`: the specifiers routed to the dependency
classifier hook. -/
def matchesPkgFilter (s : String) : Bool :=
  match s.data with
  | [] => false
  | c :: rest => (c = '@' || c.isAlphanum || c = '_') && !rest.isEmpty && rest.all (· ≠ '\n')

/-- Package-name portion of a specifier, as computed by the source
(`split('/', 2).join('/')` for scoped names, `split('/', 1)[0]` otherwise). -/
def pkgNameOf (spec : String) : String :=
  if jsStartsWith spec ("@") then
    String.intercalate ("/") ((jsSplit spec '/').take 2)
  else ((jsSplit spec '/').headD (""))

/-- Package-name extraction in the spec's words: the first path segment,
or the first two segments when the specifier starts with `@`. -/
def specSegName (spec : String) : String :=
  if jsStartsWith spec ("@") then
    String.intercalate ("/") ((jsSplit spec '/').take 2)
  else ((jsSplit spec '/').headD (""))

/-- Decision of an `onResolve` hook: defer to ordinary resolution
(`null`), return an `external` flag with an optional rewritten path,
throw an error, or crash on a JS `TypeError`. -/
inductive ResolveDecision where
  | defer
  | ext (external : Bool) (path? : Option String)
  | err (msg : String)
  | crash
  deriving DecidableEq

/-- The dependency classifier: the `onResolve` handler for package-like
specifiers in `externalPlugin`.  `isBuiltin` abstracts `node:module`'s
builtin test. -/
def externalResolve (m : PackageJson) (isBuiltin : String → Bool)
    (importer spec : String) : ResolveDecision :=
  if jsStartsWith spec ("/") then .defer
  else if isBuiltin spec then .ext true none
  else
    let name := pkgNameOf spec
    if name = m.name then .ext true none
    else
      let tys := DependencyType.filter (fun ty => hasDep m ty name)
      if tys.length = 0 then
        .err (("Missing dependency: ") ++ name ++ (" from ") ++ importer)
      else .ext (!(tys.erase ("devDependencies")).isEmpty) none

/-- Arguments of the relative-import `onResolve` hook: the literal
specifier and the resolving directory. -/
structure RelArgs where
  path : String
  resolveDir : String

/-- Rewrite of a cross-task target (`externalPlugin` lines computing
`relpath`): path relative to the consuming task's output directory, with
separators normalised and a leading relative marker forced. -/
def rewriteRel (curOut outFile : String) : String :=
  if jsStartsWith (slashify (nodeRelative ("/") (dirname curOut) outFile)) (".") then
    slashify (nodeRelative ("/") (dirname curOut) outFile)
  else ("./") ++ slashify (nodeRelative ("/") (dirname curOut) outFile)

/-- The relative-import resolver hook of `externalPlugin`.  `resolved` is
the absolute path produced by `build.resolve` (empty when resolution
failed).  A JS `TypeError` (property read on `undefined` passed to
`dirname`) is modelled as `.crash`. -/
def relativeResolve (reg : Registry) (currentEntry : String)
    (platform? format? : Option String) (args : RelArgs) (resolved : String) :
    ResolveDecision :=
  let ext := extname args.path
  let reflected : Option ResolveDecision :=
    if resolved = ("") && jsEndsWith ext ("js") then
      let base := nodeJoin [args.resolveDir, jsSliceNeg args.path 0 ext.length]
      match lookupKey reg (base ++ (".d") ++ replaceJsTs ext) with
      | some e => some (.ext true (lookupKey e ("types")))
      | none => none
    else none
  match reflected with
  | some d => d
  | none =>
    if currentEntry = resolved then .defer
    else
      match lookupKey reg resolved with
      | none => .defer
      | some e =>
        if format? = some ("cjs") then .ext true none
        else
          let key := platform?.getD ("undefined")
          let outFile? := jsOrStr (lookupKey e key) (lookupKey e ("default"))
          if !jsTruthyStr outFile? then .defer
          else
            match lookupKey reg currentEntry with
            | none => .crash
            | some ce =>
              match lookupKey ce key with
              | none => .crash
              | some curOut => .ext true (some (rewriteRel curOut (outFile?.getD (""))))

/-- Static context of one `dumble` run (everything `addExport` closes
over). -/
structure Ctx where
  cwd : String
  name : String
  rootDir : String
  outDir : String
  outdir : String
  outbase : String
  target : Option String
  minify : Option Bool
  sourceMap : Option Bool
  define : List (String × String)
  glob : String → String → List String

/-- `${manifest.name}/${prefix!}` — with a `null` prefix JS prints the
string `null`. -/
def prefixStr : Option String → String
  | some s => s
  | none => ("null")

/-- Output file claimed by one filesystem match:
`join(outdir, entry + outExt)` where `entry` is the match without its
extension. -/
def targetOutFile (ctx : Ctx) (outExt t : String) : String :=
  nodeJoin [ctx.outdir, jsSliceNeg t 0 (extname t).length ++ outExt]

/-- The build task pushed for one filesystem match (`matrix.push`). -/
def mkTask (ctx : Ctx) (preset : Preset) (outExt entry srcFile : String) : BuildTask where
  absWorkingDir := ctx.cwd
  outdir := ctx.outdir
  outbase := ctx.outbase
  target := ctx.target
  outExtension := outExt
  entryName := entry
  srcFile := srcFile
  bundle := true
  minify := ctx.minify
  sourcemap := ctx.sourceMap
  sourcesContent := false
  keepNames := true
  charset := ("utf8")
  logLevel := ("silent")
  resolveExtensions := [(".tsx"), (".ts"), (".jsx"), (".js"), (".css"), (".json")]
  tsconfigPath := ctx.cwd ++ ("/tsconfig.json")
  define := ctx.define
  format := preset.format
  platform := preset.platform

/-- Body of the per-match loop of `addExport` for a match that passes the
duplicate-output check: claim the output file, record the registry slot
(the `types` slot when the preset's platform is unset, the platform slot
otherwise) and push the build task. -/
def processOne (ctx : Ctx) (preset : Preset) (pre : Option String)
    (outExt : String) (st : St) (t : String) : St :=
  let srcFile := nodeJoin [ctx.cwd, ctx.rootDir, t]
  let entry := jsSliceNeg t 0 (extname t).length
  let outFile := targetOutFile ctx outExt t
  let st := { st with outFiles := outFile :: st.outFiles }
  let st :=
    match preset.platform with
    | none => { st with exports := setSlot st.exports srcFile ("types") (ctx.name ++ ("/") ++ prefixStr pre) }
    | some pf => { st with exports := setSlot st.exports srcFile pf outFile }
  { st with matrix := st.matrix ++ [mkTask ctx preset outExt entry srcFile] }

/-- `if (isBinary) binaries.push(srcFile)`: the binary list is appended
before the duplicate-output check. -/
def pushBin (ctx : Ctx) (isBinary : Bool) (st : St) (t : String) : St :=
  if isBinary then { st with binaries := st.binaries ++ [nodeJoin [ctx.cwd, ctx.rootDir, t]] }
  else st

/-- The `for (const target of targets)` loop of `addExport`.  A match
whose output file is already claimed executes `return`, which ends the
whole loop (not just the current iteration).  A binary match records its
source file before the duplicate check. -/
def processTargets (ctx : Ctx) (preset : Preset) (pre : Option String)
    (isBinary : Bool) (outExt : String) : St → List String → St
  | st, [] => st
  | st, t :: rest =>
    if targetOutFile ctx outExt t ∈ (pushBin ctx isBinary st t).outFiles then
      pushBin ctx isBinary st t
    else
      processTargets ctx preset pre isBinary outExt
        (processOne ctx preset pre outExt (pushBin ctx isBinary st t) t) rest

/-- The passthrough loop of `resolvePattern` for patterns not rooted under
the output directory: register every globbed file lying outside `rootDir`
as `exports[file] = { default: file }`. -/
def registerPassthroughs (ctx : Ctx) : St → List String → St
  | st, [] => st
  | st, t :: rest =>
    if !jsStartsWith (nodeRelative ctx.cwd ctx.rootDir t) ("../") then
      registerPassthroughs ctx st rest
    else
      registerPassthroughs ctx
        { st with exports := setDefaultEntry st.exports (nodeJoin [ctx.cwd, t]) } rest

/-- `resolvePattern`: either handle a non-output-directory pattern as a
passthrough (returning no expansion result) or glob the corresponding
source pattern under the input root and return the output extension with
the matches. -/
def resolvePattern (ctx : Ctx) (st : St) (pattern : String) :
    St × Option (String × List String) :=
  if !jsStartsWith pattern (ctx.outDir ++ ("/")) then
    let p := replaceStarOnce pattern
    (registerPassthroughs ctx st (ctx.glob p ctx.cwd), none)
  else
    let outExt := extname pattern
    let p := replaceStarOnce (jsSliceNeg pattern (ctx.outDir.length + 1) outExt.length) ++ (".\x7bts,tsx\x7d")
    (st, some (outExt, ctx.glob p ctx.outbase))

/-- Strip a leading `./` from an export pattern. -/
def stripDotSlash (pat : String) : String :=
  if jsStartsWith pat ("./") then jsDrop pat 2 else pat

/-- Format override of the preset by the declared output extension
(`.cjs` and `.mjs` force the format, anything else inherits). -/
def adjustPreset (preset : Preset) (outExt : String) : Preset :=
  if outExt = (".cjs") then { preset with format := some ("cjs") }
  else if outExt = (".mjs") then { preset with format := some ("esm") }
  else preset

/-- `addExport`: expand one concrete export declaration into build tasks
and registry entries.  The `.cjs` / `.mjs` output extensions override the
preset's format. -/
def addExport (ctx : Ctx) (st : St) (pattern? : Option String)
    (preset : Preset) (pre : Option String) (isBinary : Bool) : St :=
  match pattern? with
  | none => st
  | some pat =>
    if pat = ("") then st
    else
      match (resolvePattern ctx st (stripDotSlash pat)).2 with
      | none => (resolvePattern ctx st (stripDotSlash pat)).1
      | some (outExt, targets) =>
        processTargets ctx (adjustPreset preset outExt) pre isBinary outExt
          (resolvePattern ctx st (stripDotSlash pat)).1 targets

mutual
/-- `addConditionalExport`: recursive descent over a conditional export
declaration, adjusting the preset by condition key. -/
def addCond (ctx : Ctx) (st : St) (e : Exports) (preset : Preset) (pre : String) : St :=
  match e with
  | .str s => addExport ctx st (some s) preset (some pre) false
  | .map kvs => addCondMap ctx st kvs preset pre
/-- The `for (const key in pattern)` loop of `addConditionalExport`. -/
def addCondMap (ctx : Ctx) (st : St) (kvs : ExportsMap) (preset : Preset) (pre : String) : St :=
  match kvs with
  | .nil => st
  | .cons key v rest =>
    let st :=
      if key = ("require") then addCond ctx st v { preset with format := some ("cjs") } pre
      else if key = ("import") then addCond ctx st v { preset with format := some ("esm") } pre
      else if key = ("browser") || key = ("node") then
        addCond ctx st v { preset with platform := some key } pre
      else if key = ("types") || key = ("typings") then
        addCond ctx st v { preset with platform := none } pre
      else
        addCond ctx st v preset (if jsStartsWith key (".") then nodeJoin [pre, key] else pre)
    addCondMap ctx st rest preset pre
end

/-- `addConditionalExport` applied to the optional `exports` manifest
field (`for...in` over `undefined` iterates nothing). -/
def addCondOpt (ctx : Ctx) (st : St) (e? : Option Exports) (preset : Preset) (pre : String) : St :=
  match e? with
  | none => st
  | some e => addCond ctx st e preset pre

/-- JS falsiness of the `exports` manifest field (`!manifest.exports`):
the field is falsy when absent or when it is the empty string. -/
def jsFalsyExports : Option Exports → Bool
  | none => true
  | some (.str s) => s = ("")
  | some (.map _) => false

/-- The implicit manifest passthrough: `addExport('package.json', preset,
null)` guarded by `!manifest.exports`. -/
def implicitManifestStep (ctx : Ctx) (preset : Preset) (m : PackageJson) (st : St) : St :=
  if jsFalsyExports m.exports? then
    addExport ctx st (some ("package.json")) preset none false
  else st

/-- Outcome of the expansion phase of `dumble`: the early return when no
emit flag is set, a crash (`dirname(undefined)` throws when neither
`outDir` nor `outFile` is configured), or the final state. -/
inductive ExpandOutcome where
  | skipped
  | crashed
  | done (st : St)
  deriving DecidableEq

/-- The declaration-processing sequence of `dumble`, in source order:
`main`, `module` (format forced to `esm`), conditional exports, implicit
manifest passthrough, then `bin`. -/
def expandSteps (ctx : Ctx) (manifest : PackageJson) (preset : Preset) (st : St) : St :=
  let st := addExport ctx st manifest.main? preset (some ("")) false
  let st := addExport ctx st manifest.module? { preset with format := some ("esm") } (some ("")) false
  let st := addCondOpt ctx st manifest.exports? preset ("")
  let st := implicitManifestStep ctx preset manifest st
  match manifest.bin? with
  | none => st
  | some (.str s) => addExport ctx st (some s) preset none true
  | some (.table kvs) =>
    kvs.foldl (fun st kv => addExport ctx st (some kv.2) preset none true) st

/-- The expansion phase of `dumble`: derive the run context from the
manifest and compiler configuration, then process the declaration fields
in source order (`main`, `module`, conditional exports, implicit manifest
passthrough, `bin`). -/
def dumble (cwd : String) (manifest : PackageJson) (tsconfig : TsConfig)
    (opts : Options) (glob : String → String → List String) : ExpandOutcome :=
  if !tsconfig.noEmit && !tsconfig.emitDeclarationOnly then .skipped
  else
    let outDir? :=
      match tsconfig.outDir? with
      | some d => some d
      | none =>
        match tsconfig.outFile? with
        | some f => some (dirname f)
        | none => none
    match outDir? with
    | none => .crashed
    | some outDir =>
      let rootDir := tsconfig.rootDir?.getD ("")
      let ctx : Ctx :=
        { cwd := cwd
          name := manifest.name
          rootDir := rootDir
          outDir := outDir
          outdir := resolveAbs cwd outDir
          outbase := resolveAbs cwd rootDir
          target := tsconfig.target?
          minify := opts.minify
          sourceMap := tsconfig.sourceMap
          define := opts.env.map (fun kv => (("process.env.") ++ kv.1, jsonStringifyStr kv.2))
          glob := glob }
      let preset : Preset :=
        { platform := some ("node")
          format := if manifest.type? = some ("module") then some ("esm") else some ("cjs") }
      .done (expandSteps ctx manifest preset
        { matrix := [], exports := [], outFiles := [], binaries := [] })

/-- Task matrix of an expansion outcome. -/
def expandMatrix : ExpandOutcome → List BuildTask
  | .done st => st.matrix
  | _ => []

/-- Export registry of an expansion outcome. -/
def expandRegistry : ExpandOutcome → Registry
  | .done st => st.exports
  | _ => []

/-- Output file written by a build task. -/
def outFileOfTask (t : BuildTask) : String :=
  nodeJoin [t.outdir, t.entryName ++ t.outExtension]

/-- Slot lookup in the registry. -/
def lookupSlot (reg : Registry) (file slot : String) : Option String :=
  match lookupKey reg file with
  | none => none
  | some e => lookupKey e slot

/-- The known-benign message substrings filtered from display
(the `ignored` constant). -/
def ignoredMessages : List String :=
  [("This call to \"require\" will not be bundled because the argument is not a string literal"),
   ("Indirect calls to \"require\" will not be bundled"),
   ("should be marked as external for use with \"require.resolve\"")]

/-- A diagnostic text is displayed unless it contains one of the ignored
substrings (the `display` helper). -/
def isDisplayed (text : String) : Bool :=
  !(ignoredMessages.any (fun msg => jsIncludes text msg))

/-- Observable outcome of dispatching one build task to esbuild: success
with warnings, or a `BuildFailure` carrying error and warning texts. -/
inductive TaskOutcome where
  | success (warnings : List String)
  | failure (errors : List String) (warnings : List String)
  deriving DecidableEq

/-- Aggregate count of real (non-filtered) errors across all tasks. -/
def realErrorCount (outcomes : List TaskOutcome) : Nat :=
  (outcomes.map (fun o =>
    match o with
    | .success _ => 0
    | .failure errs _ => (errs.filter isDisplayed).length)).sum

/-- Process exit status of the current pipeline (`bin.ts` awaiting
`dumble`): `bundle` displays the errors of a rejected build and resolves,
no counter is incremented anywhere, `dumble` returns `undefined`, and the
binary never sets `process.exitCode` — so the process exits 0 regardless
of the outcomes. -/
def dumbleProcessExit (_outcomes : List TaskOutcome) : Nat := 0

/-- Process exit status of the older `esbuild` entry point in
`src/index.ts`, whose `bundle` accumulates `code += errors.length` and
which ends with `if (code) process.exit(code)` (all errors are counted,
including filtered ones). -/
def esbuildProcessExit (outcomes : List TaskOutcome) : Nat :=
  (outcomes.map (fun o =>
    match o with
    | .success _ => 0
    | .failure errs _ => errs.length)).sum

/-- Shared compiler configuration of the concrete scenarios below:
`rootDir src`, `outDir lib`, `noEmit` set. -/
def tsDemo : TsConfig :=
  { rootDir? := some ("src"), outDir? := some ("lib"), noEmit := true }

/-- Filesystem for the dedup scenario: `src/a.ts` and `src/b.ts`. -/
def globDedupDemo (pat dir : String) : List String :=
  if pat = ("a.\x7bts,tsx\x7d") && dir = ("/p/src") then [("a.ts")]
  else if pat = ("**.\x7bts,tsx\x7d") && dir = ("/p/src") then [("a.ts"), ("b.ts")]
  else []

/-- Manifest for the dedup scenario: `main` claims `lib/a.js`, then the
wildcard `module` declaration matches both `a.ts` and `b.ts`. -/
def manifestDedupDemo : PackageJson :=
  { name := ("demo"), main? := some ("lib/a.js"), module? := some ("lib/*.js") }

/-- Filesystem for the declaration-only scenario: `src/index.d.ts`
exists. -/
def globTypesDemo (pat dir : String) : List String :=
  if pat = ("index.d.\x7bts,tsx\x7d") && dir = ("/p/src") then [("index.d.ts")]
  else []

/-- Manifest whose only export declaration is a `types` branch. -/
def manifestTypesDemo : PackageJson :=
  { name := ("demo"),
    exports? := some (.map (.cons ("types") (.str ("./lib/index.d.ts")) .nil)) }

/-- Filesystem for the implicit-passthrough scenario: `package.json`
exists at the package root. -/
def globImplicitDemo (pat dir : String) : List String :=
  if pat = ("package.json") && dir = ("/p") then [("package.json")]
  else []

/-- Manifest that declares an `exports` field holding the empty string. -/
def manifestImplicitDemo : PackageJson :=
  { name := ("demo"), exports? := some (.str ("")) }

/-- Registry for the C3 scenario: the resolved file is registered with
only a declaration-only slot. -/
def regTypesOnly : Registry :=
  [(("/p/src/util.ts"), [(("types"), ("demo/"))]),
   (("/p/src/index.ts"), [(("node"), ("/p/lib/index.mjs"))])]

/-- Registry with per-platform outputs for both entries. -/
def regTwoTasks : Registry :=
  [(("/p/src/util.ts"), [(("node"), ("/p/lib/util.mjs"))]),
   (("/p/src/index.ts"), [(("node"), ("/p/lib/index.mjs"))])]

/-- Invariant of the expansion state: the output files of the pushed
tasks are pairwise distinct and all of them are claimed in `outFiles`. -/
def outsInv (st : St) : Prop :=
  (st.matrix.map outFileOfTask).Nodup ∧
  ∀ f ∈ st.matrix.map outFileOfTask, f ∈ st.outFiles

/-- Lookup after update at the updated key. -/
theorem lookupKey_setKey_self {α : Type} (l : List (String × α)) (k : String) (v : α) :
    lookupKey (setKey l k v) k = some v := by
  induction l with
  | nil => simp [setKey, lookupKey]
  | cons hd tl ih =>
    obtain ⟨k', w⟩ := hd
    by_cases h : k' = k <;> simp [setKey, lookupKey, h, ih]

/-- Lookup after update at a different key. -/
theorem lookupKey_setKey_ne {α : Type} (l : List (String × α)) (k k' : String) (v : α)
    (h : k ≠ k') : lookupKey (setKey l k v) k' = lookupKey l k' := by
  induction l with
  | nil => simp [setKey, lookupKey, h]
  | cons hd tl ih =>
    obtain ⟨k'', w⟩ := hd
    by_cases h2 : k'' = k
    · subst h2
      simp [setKey, lookupKey, h]
    · by_cases h3 : k'' = k' <;> simp [setKey, lookupKey, h2, h3, ih, Ne.symm h]

/-- Slot lookup after writing the same slot. -/
theorem lookupSlot_setSlot_self (reg : Registry) (f s v : String) :
    lookupSlot (setSlot reg f s v) f s = some v := by
  unfold setSlot lookupSlot
  cases h : lookupKey reg f <;>
    simp [h, lookupKey_setKey_self, lookupKey]

/-- `processOne` appends exactly one task. -/
theorem processOne_matrix (ctx : Ctx) (p : Preset) (pre : Option String)
    (oe : String) (st : St) (t : String) :
    (processOne ctx p pre oe st t).matrix =
      st.matrix ++ [mkTask ctx p oe (jsSliceNeg t 0 (extname t).length) (nodeJoin [ctx.cwd, ctx.rootDir, t])] := by
  unfold processOne
  cases h : p.platform <;> simp [h]

/-- `processOne` claims exactly the match's output file. -/
theorem processOne_outFiles (ctx : Ctx) (p : Preset) (pre : Option String)
    (oe : String) (st : St) (t : String) :
    (processOne ctx p pre oe st t).outFiles = targetOutFile ctx oe t :: st.outFiles := by
  unfold processOne
  cases h : p.platform <;> simp [h]

/-- `processOne` does not touch the binary list. -/
theorem processOne_binaries (ctx : Ctx) (p : Preset) (pre : Option String)
    (oe : String) (st : St) (t : String) :
    (processOne ctx p pre oe st t).binaries = st.binaries := by
  unfold processOne
  cases h : p.platform <;> simp [h]

/-- The task pushed for a match writes the file claimed for that match. -/
theorem outFileOfTask_mkTask (ctx : Ctx) (p : Preset) (oe t : String) :
    outFileOfTask (mkTask ctx p oe (jsSliceNeg t 0 (extname t).length) (nodeJoin [ctx.cwd, ctx.rootDir, t])) =
      targetOutFile ctx oe t := rfl

/-- The passthrough loop only writes registry entries. -/
theorem registerPassthroughs_fields (ctx : Ctx) (ts : List String) : ∀ st : St,
    (registerPassthroughs ctx st ts).matrix = st.matrix ∧
    (registerPassthroughs ctx st ts).outFiles = st.outFiles ∧
    (registerPassthroughs ctx st ts).binaries = st.binaries := by
  induction ts with
  | nil => intro st; exact ⟨rfl, rfl, rfl⟩
  | cons t rest ih =>
    intro st
    unfold registerPassthroughs
    split
    · exact ih st
    · simpa using ih { st with exports := setDefaultEntry st.exports (nodeJoin [ctx.cwd, t]) }

/-- `resolvePattern` only writes registry entries into the state it
returns. -/
theorem resolvePattern_fields (ctx : Ctx) (st : St) (pat : String) :
    ((resolvePattern ctx st pat).1).matrix = st.matrix ∧
    ((resolvePattern ctx st pat).1).outFiles = st.outFiles ∧
    ((resolvePattern ctx st pat).1).binaries = st.binaries := by
  unfold resolvePattern
  split
  · simpa using registerPassthroughs_fields ctx (ctx.glob (replaceStarOnce pat) ctx.cwd) st
  · exact ⟨rfl, rfl, rfl⟩

/-- The invariant only depends on the matrix and claimed output files. -/
theorem outsInv_congr {a b : St} (h1 : a.matrix = b.matrix) (h2 : a.outFiles = b.outFiles)
    (h : outsInv b) : outsInv a := by
  unfold outsInv
  rw [h1, h2]
  exact h

/-- A non-duplicate match preserves the output-file invariant. -/
theorem processOne_outsInv (ctx : Ctx) (p : Preset) (pre : Option String)
    (oe : String) (st : St) (t : String) (h : outsInv st)
    (hmem : targetOutFile ctx oe t ∉ st.outFiles) :
    outsInv (processOne ctx p pre oe st t) := by
  constructor
  · rw [processOne_matrix, List.map_append, List.map_singleton, outFileOfTask_mkTask,
      List.nodup_append]
    refine ⟨h.1, List.nodup_singleton _, ?_⟩
    intro x hx hx'
    rw [List.mem_singleton] at hx'
    subst hx'
    exact hmem (h.2 _ hx)
  · intro f hf
    rw [processOne_matrix, List.map_append, List.map_singleton, outFileOfTask_mkTask] at hf
    rw [processOne_outFiles]
    rcases List.mem_append.1 hf with hf | hf
    · exact List.mem_cons_of_mem _ (h.2 _ hf)
    · rw [List.mem_singleton] at hf
      subst hf
      exact List.mem_cons_self _ _

/-- `pushBin` only touches the binary list. -/
theorem pushBin_fields (ctx : Ctx) (b : Bool) (st : St) (t : String) :
    (pushBin ctx b st t).matrix = st.matrix ∧
    (pushBin ctx b st t).outFiles = st.outFiles ∧
    (pushBin ctx b st t).exports = st.exports := by
  cases b <;> simp [pushBin]

/-- The per-match loop preserves the output-file invariant. -/
theorem processTargets_outsInv (ctx : Ctx) (p : Preset) (pre : Option String)
    (b : Bool) (oe : String) (ts : List String) : ∀ st : St, outsInv st →
    outsInv (processTargets ctx p pre b oe st ts) := by
  induction ts with
  | nil => intro st h; exact h
  | cons t rest ih =>
    intro st h
    have hbin : outsInv (pushBin ctx b st t) :=
      outsInv_congr (pushBin_fields ctx b st t).1 (pushBin_fields ctx b st t).2.1 h
    unfold processTargets
    split
    · exact hbin
    · rename_i hmem
      exact ih _ (processOne_outsInv ctx p pre oe _ t hbin hmem)

/-- `addExport` preserves the output-file invariant. -/
theorem addExport_outsInv (ctx : Ctx) (st : St) (pat? : Option String)
    (p : Preset) (pre : Option String) (b : Bool) (h : outsInv st) :
    outsInv (addExport ctx st pat? p pre b) := by
  have hf := resolvePattern_fields ctx st
  cases pat? with
  | none => simpa [addExport] using h
  | some pat =>
    simp only [addExport]
    by_cases hp : pat = ("")
    · simpa [hp] using h
    · rw [if_neg hp]
      have hst' : outsInv (resolvePattern ctx st (stripDotSlash pat)).1 :=
        outsInv_congr (hf (stripDotSlash pat)).1 (hf (stripDotSlash pat)).2.1 h
      cases hm : (resolvePattern ctx st (stripDotSlash pat)).2 with
      | none => exact hst'
      | some v =>
        obtain ⟨oe, targets⟩ := v
        exact processTargets_outsInv ctx _ pre b _ _ _ hst'

mutual
/-- Conditional-export descent preserves the output-file invariant. -/
theorem addCond_outsInv (ctx : Ctx) (e : Exports) : ∀ (st : St) (p : Preset) (pre : String),
    outsInv st → outsInv (addCond ctx st e p pre) := by
  intro st p pre h
  cases e with
  | str s => exact addExport_outsInv ctx st (some s) p (some pre) false h
  | map kvs => exact addCondMap_outsInv ctx kvs st p pre h
/-- The conditional-export key loop preserves the output-file invariant. -/
theorem addCondMap_outsInv (ctx : Ctx) (kvs : ExportsMap) : ∀ (st : St) (p : Preset) (pre : String),
    outsInv st → outsInv (addCondMap ctx st kvs p pre) := by
  intro st p pre h
  cases kvs with
  | nil => exact h
  | cons key v rest =>
    rw [addCondMap]
    apply addCondMap_outsInv ctx rest
    split
    · exact addCond_outsInv ctx v st _ pre h
    · split
      · exact addCond_outsInv ctx v st _ pre h
      · split
        · exact addCond_outsInv ctx v st _ pre h
        · split
          · exact addCond_outsInv ctx v st _ pre h
          · exact addCond_outsInv ctx v st _ _ h
end

/-- The `bin` table loop preserves the output-file invariant. -/
theorem binFold_outsInv (ctx : Ctx) (p : Preset) (kvs : List (String × String)) :
    ∀ st : St, outsInv st →
    outsInv (kvs.foldl (fun st kv => addExport ctx st (some kv.2) p none true) st) := by
  induction kvs with
  | nil => intro st h; exact h
  | cons kv rest ih =>
    intro st h
    exact ih _ (addExport_outsInv ctx st (some kv.2) p none true h)

/-- The implicit manifest passthrough preserves the output-file
invariant. -/
theorem implicitManifestStep_outsInv (ctx : Ctx) (p : Preset) (m : PackageJson) (st : St)
    (h : outsInv st) : outsInv (implicitManifestStep ctx p m st) := by
  unfold implicitManifestStep
  split
  · exact addExport_outsInv ctx st (some (("package.json"))) p none false h
  · exact h

/-- The whole declaration sequence preserves the output-file invariant. -/
theorem expandSteps_outsInv (ctx : Ctx) (m : PackageJson) (p : Preset) (st : St)
    (h : outsInv st) : outsInv (expandSteps ctx m p st) := by
  simp only [expandSteps]
  have h1 := addExport_outsInv ctx st m.main? p (some ("")) false h
  have h2 := addExport_outsInv ctx _ m.module? { p with format := some ("esm") } (some ("")) false h1
  have h3 : outsInv (addCondOpt ctx
      (addExport ctx (addExport ctx st m.main? p (some ("")) false) m.module?
        { p with format := some ("esm") } (some ("")) false)
      m.exports? p ("")) := by
    unfold addCondOpt
    cases m.exports? with
    | none => exact h2
    | some e => exact addCond_outsInv ctx e _ p ("") h2
  have h4 := implicitManifestStep_outsInv ctx p m _ h3
  cases m.bin? with
  | none => exact h4
  | some b =>
    cases b with
    | str s => exact addExport_outsInv ctx _ (some s) p none true h4
    | table kvs => exact binFold_outsInv ctx p kvs _ h4

/-- C2: for every manifest and configuration, the tasks produced by one
run of task-matrix construction write pairwise distinct output files
(outdir joined with entry name and output extension). -/
theorem claim_c2 (cwd : String) (m : PackageJson) (ts : TsConfig) (opts : Options)
    (glob : String → String → List String) :
    ((expandMatrix (dumble cwd m ts opts glob)).map outFileOfTask).Nodup := by
  unfold dumble
  split
  · simp [expandMatrix]
  · cases hd : ts.outDir? with
    | some d =>
      simp only [hd, expandMatrix]
      exact (expandSteps_outsInv _ m _ _ ⟨by simp, by simp⟩).1
    | none =>
      cases hf : ts.outFile? with
      | none => simp [hd, hf, expandMatrix]
      | some f =>
        simp only [hd, hf, expandMatrix]
        exact (expandSteps_outsInv _ m _ _ ⟨by simp, by simp⟩).1

/-- C9: export-map resolution is a pure function of the manifest, the
compiler configuration, the invocation options and the filesystem; the
expansion state is created afresh inside `dumble`, so running it twice on
unchanged inputs yields the same outcome, the same task matrix and the
same registry. -/
theorem claim_c9 (cwd : String) (m : PackageJson) (ts : TsConfig) (opts : Options)
    (glob : String → String → List String) :
    dumble cwd m ts opts glob = dumble cwd m ts opts glob ∧
    expandMatrix (dumble cwd m ts opts glob) = expandMatrix (dumble cwd m ts opts glob) ∧
    expandRegistry (dumble cwd m ts opts glob) = expandRegistry (dumble cwd m ts opts glob) :=
  ⟨rfl, rfl, rfl⟩

/-- C10: when the compiler configuration sets neither `noEmit` nor
`emitDeclarationOnly`, `dumble` returns before any export expansion: no
build task is created and no registry entry is produced. -/
theorem claim_c10 (cwd : String) (m : PackageJson) (ts : TsConfig) (opts : Options)
    (glob : String → String → List String)
    (h1 : ts.noEmit = false) (h2 : ts.emitDeclarationOnly = false) :
    dumble cwd m ts opts glob = .skipped ∧
    expandMatrix (dumble cwd m ts opts glob) = [] ∧
    expandRegistry (dumble cwd m ts opts glob) = [] := by
  have hd : dumble cwd m ts opts glob = .skipped := by
    simp [dumble, h1, h2]
  exact ⟨hd, by rw [hd]; rfl, by rw [hd]; rfl⟩

/-- C10 witness: a default configuration (no emit flags) on a concrete
manifest is skipped. -/
theorem claim_c10_witness :
    dumble ("/p") { name := ("demo") } {} {} (fun _ _ => []) = .skipped ∧
    expandMatrix (dumble ("/p") { name := ("demo") } {} {} (fun _ _ => [])) = [] ∧
    expandRegistry (dumble ("/p") { name := ("demo") } {} {} (fun _ _ => [])) = [] :=
  claim_c10 ("/p") { name := ("demo") } {} {} (fun _ _ => []) rfl rfl

/-- C6: the current pipeline exits 0 even when a task fails with one real
(non-filtered) error, while the older `esbuild` entry point propagated the
aggregate error count into the exit status as the claim describes. -/
theorem claim_c6 :
    realErrorCount [TaskOutcome.failure [("Could not resolve a.ts")] []] = 1 ∧
    dumbleProcessExit [TaskOutcome.failure [("Could not resolve a.ts")] []] = 0 ∧
    esbuildProcessExit [TaskOutcome.failure [("Could not resolve a.ts")] []] = 1 := by
  exact ⟨by decide, rfl, rfl⟩

/-- C1 counterexample: the specifier `demo/x` is handled by the
classifier hook (it matches the package filter, is not absolute and is
not builtin), its package name is declared under none of the four
dependency kinds, and yet the classifier returns external instead of
raising the undeclared-dependency error, because the name equals the
manifest's own `name`. -/
theorem claim_c1_cex :
    matchesPkgFilter ("demo/x") = true ∧
    (∀ ty ∈ DependencyType, hasDep { name := ("demo") } ty (pkgNameOf ("demo/x")) = false) ∧
    externalResolve { name := ("demo") } (fun _ => false) ("a.ts") ("demo/x") =
      .ext true none := by
  exact ⟨by decide, by decide, by decide⟩

/-- C3 counterexample: a relative import in an esm task whose resolved
file is registered (with only a declaration-only slot) and is not the
entry point is not marked external: the hook returns no override. -/
theorem claim_c3_cex :
    lookupKey regTypesOnly ("/p/src/util.ts") ≠ none ∧
    ("/p/src/util.ts") ≠ ("/p/src/index.ts") ∧
    relativeResolve regTypesOnly ("/p/src/index.ts") (some ("node")) (some ("esm"))
      ⟨("./util"), ("/p/src")⟩ ("/p/src/util.ts") = .defer := by
  exact ⟨by decide, by decide, by decide⟩

/-- C4 counterexample: a `types` export branch with a matching source
file (`src/index.d.ts`) populates the declaration-only registry slot but
also pushes a build task (entry `index.d`, platform unset). -/
theorem claim_c4_cex :
    globTypesDemo ("index.d.\x7bts,tsx\x7d") ("/p/src") = [("index.d.ts")] ∧
    (expandMatrix (dumble ("/p") manifestTypesDemo tsDemo {} globTypesDemo)).map
      (fun t => (t.entryName, t.platform)) = [(("index.d"), (none : Option String))] ∧
    lookupSlot (expandRegistry (dumble ("/p") manifestTypesDemo tsDemo {} globTypesDemo))
      ("/p/src/index.d.ts") ("types") = some ("demo/") := by
  exact ⟨by decide, by decide, by decide⟩

/-- C5 counterexample: the wildcard `module` declaration matches both
`a.ts` and `b.ts`; `a.ts` collides with the output file already claimed
by `main`, and the loop's `return` also skips `b.ts`, so no task for
`b.ts` is ever created. -/
theorem claim_c5_cex :
    globDedupDemo ("**.\x7bts,tsx\x7d") ("/p/src") = [("a.ts"), ("b.ts")] ∧
    (expandMatrix (dumble ("/p") manifestDedupDemo tsDemo {} globDedupDemo)).map
      (fun t => t.srcFile) = [("/p/src/a.ts")] := by
  exact ⟨by decide, by decide⟩

/-- C8 counterexample: a manifest that declares `exports` as the empty
string is falsy, so the implicit `package.json` passthrough is still
registered even though the manifest does declare an `exports` field. -/
theorem claim_c8_cex :
    manifestImplicitDemo.exports? ≠ none ∧
    expandRegistry (dumble ("/p") manifestImplicitDemo tsDemo {} globImplicitDemo) =
      [(("/p/package.json"), [(("default"), ("/p/package.json"))])] ∧
    expandMatrix (dumble ("/p") manifestImplicitDemo tsDemo {} globImplicitDemo) = [] := by
  exact ⟨by decide, by decide, by decide⟩

/-- C7: with a successfully resolved relative import, the hook defers
(returns no override) when the resolved file is the task's own entry
point or is absent from the registry; otherwise, in a cjs-format task it
marks the import external without any path rewrite. -/
theorem claim_c7 (reg : Registry) (entry : String) (platform? format? : Option String)
    (args : RelArgs) (resolved : String) (hres : resolved ≠ ("")) :
    ((entry = resolved ∨ lookupKey reg resolved = none) →
      relativeResolve reg entry platform? format? args resolved = .defer) ∧
    (∀ e, entry ≠ resolved → lookupKey reg resolved = some e → format? = some ("cjs") →
      relativeResolve reg entry platform? format? args resolved = .ext true none) := by
  constructor
  · intro h
    rcases h with h | h
    · simp [relativeResolve, hres, h]
    · by_cases he : entry = resolved
      · simp [relativeResolve, hres, he]
      · simp [relativeResolve, hres, he, h]
  · intro e hne hreg hfmt
    simp [relativeResolve, hres, hne, hreg, hfmt]

/-- C7 witness: in a concrete registry, a cjs-format task externalises a
registered cross-task import without a rewritten path, and an
unregistered import is deferred. -/
theorem claim_c7_witness :
    relativeResolve regTwoTasks ("/p/src/index.ts") (some ("node")) (some ("cjs"))
      ⟨("./util"), ("/p/src")⟩ ("/p/src/util.ts") = .ext true none ∧
    relativeResolve regTwoTasks ("/p/src/index.ts") (some ("node")) (some ("cjs"))
      ⟨("./other"), ("/p/src")⟩ ("/p/src/other.ts") = .defer :=
  ⟨(claim_c7 regTwoTasks ("/p/src/index.ts") (some ("node")) (some ("cjs"))
      ⟨("./util"), ("/p/src")⟩ ("/p/src/util.ts") (by decide)).2
      [(("node"), ("/p/lib/util.mjs"))] (by decide) (by decide) rfl,
   (claim_c7 regTwoTasks ("/p/src/index.ts") (some ("node")) (some ("cjs"))
      ⟨("./other"), ("/p/src")⟩ ("/p/src/other.ts") (by decide)).1
      (Or.inr (by decide))⟩

/-- C1 (amended): for a specifier handled by the classifier that is not
absolute, not a builtin module and whose package name differs from the
manifest's own name, the decision is fully determined by the
dependency-kind mappings: under none of the four kinds the classifier
raises the undeclared-dependency error; under `devDependencies` only it
is bundled (`external: false`); under any of `dependencies`,
`peerDependencies` or `optionalDependencies` it is external, even if also
declared under `devDependencies`.  The package name is the first path
segment, or the first two when the specifier starts with `@`. -/
theorem claim_c1 (m : PackageJson) (isBuiltin : String → Bool) (importer spec : String)
    (hflt : matchesPkgFilter spec = true)
    (habs : jsStartsWith spec ("/") = false)
    (hbi : isBuiltin spec = false)
    (hself : pkgNameOf spec ≠ m.name) :
    (pkgNameOf spec = specSegName spec) ∧
    ((∀ ty ∈ DependencyType, hasDep m ty (pkgNameOf spec) = false) →
      externalResolve m isBuiltin importer spec =
        .err (("Missing dependency: ") ++ pkgNameOf spec ++ (" from ") ++ importer)) ∧
    ((hasDep m ("devDependencies") (pkgNameOf spec) = true ∧
      hasDep m ("dependencies") (pkgNameOf spec) = false ∧
      hasDep m ("peerDependencies") (pkgNameOf spec) = false ∧
      hasDep m ("optionalDependencies") (pkgNameOf spec) = false) →
      externalResolve m isBuiltin importer spec = .ext false none) ∧
    ((hasDep m ("dependencies") (pkgNameOf spec) = true ∨
      hasDep m ("peerDependencies") (pkgNameOf spec) = true ∨
      hasDep m ("optionalDependencies") (pkgNameOf spec) = true) →
      externalResolve m isBuiltin importer spec = .ext true none) := by
  refine ⟨rfl, ?_, ?_, ?_⟩
  · intro h
    have h1 := h ("dependencies") (by decide)
    have h2 := h ("devDependencies") (by decide)
    have h3 := h ("peerDependencies") (by decide)
    have h4 := h ("optionalDependencies") (by decide)
    simp [externalResolve, habs, hbi, hself, DependencyType, h1, h2, h3, h4]
  · intro h
    obtain ⟨hd, h1, h2, h3⟩ := h
    simp [externalResolve, habs, hbi, hself, DependencyType, hd, h1, h2, h3, List.erase_cons]
  · intro h
    rcases h with h | h | h <;>
      cases hdev : hasDep m ("devDependencies") (pkgNameOf spec) <;>
      cases h1 : hasDep m ("dependencies") (pkgNameOf spec) <;>
      cases h2 : hasDep m ("peerDependencies") (pkgNameOf spec) <;>
      cases h3 : hasDep m ("optionalDependencies") (pkgNameOf spec) <;>
      simp_all [externalResolve, habs, hbi, hself, DependencyType, List.erase_cons]

/-- C1 witness: `foo/util` with `foo` declared under both `dependencies`
and `devDependencies` classifies as external. -/
theorem claim_c1_witness :
    externalResolve
      { name := ("demo"), dependencies := [(("foo"), ("1.0.0"))],
        devDependencies := [(("foo"), ("1.0.0"))] }
      (fun _ => false) ("a.ts") ("foo/util") = .ext true none :=
  (claim_c1
    { name := ("demo"), dependencies := [(("foo"), ("1.0.0"))],
      devDependencies := [(("foo"), ("1.0.0"))] }
    (fun _ => false) ("a.ts") ("foo/util")
    (by decide) (by decide) rfl (by decide)).2.2.2 (Or.inl (by decide))

/-- Separator normalisation leaves no backslash in the string. -/
theorem slashify_no_backslash (s : String) :
    (slashify s).data.all (fun c => c ≠ '\\') = true := by
  show (s.data.map _).all _ = true
  rw [List.all_map]
  apply List.all_eq_true.2
  intro c _
  by_cases h : c = '\\' <;> simp [h]

/-- A forced relative marker makes the string start with a dot. -/
theorem dotSlash_startsWith (s : String) : jsStartsWith (("./") ++ s) (".") = true := by
  have hd : (("./") ++ s).data = '.' :: '/' :: s.data := by
    rw [String.data_append]
    rfl
  rw [jsStartsWith, hd]
  simp [List.isPrefixOf]

/-- The characters of a dot-slash-prefixed string. -/
theorem dotSlash_data (s : String) : (("./") ++ s).data = '.' :: '/' :: s.data := by
  rw [String.data_append]
  rfl

/-- The rewritten path always begins with a relative marker. -/
theorem rewriteRel_startsWith (curOut outF : String) :
    jsStartsWith (rewriteRel curOut outF) (".") = true := by
  unfold rewriteRel
  split
  · assumption
  · exact dotSlash_startsWith _

/-- The rewritten path contains no backslash separators. -/
theorem rewriteRel_no_backslash (curOut outF : String) :
    (rewriteRel curOut outF).data.all (fun c => c ≠ '\\') = true := by
  unfold rewriteRel
  split
  · exact slashify_no_backslash _
  · rw [dotSlash_data]
    simp only [List.all_cons, Bool.and_eq_true]
    exact ⟨by decide, by decide, slashify_no_backslash _⟩

/-- C3 (amended): a relative import in an esm-format task whose resolved
file is registered, is not the task's own entry point, and whose registry
entry carries a (truthy) output for the task's platform or in the
`default` slot, is marked external with a path computed relative to the
directory of the current entry's registered output for the task's
platform, normalised to forward slashes, with a leading relative marker
forced.  Registry entries lacking both the platform and `default` slots
(declaration-only registrations) are instead treated as internal. -/
theorem claim_c3 (reg : Registry) (entry : String) (platform? : Option String)
    (args : RelArgs) (resolved : String) (e ce : List (String × String)) (outF curOut : String)
    (hres : resolved ≠ (""))
    (hne : entry ≠ resolved)
    (hreg : lookupKey reg resolved = some e)
    (hout : jsOrStr (lookupKey e (platform?.getD ("undefined"))) (lookupKey e ("default")) = some outF)
    (houtT : outF ≠ (""))
    (hce : lookupKey reg entry = some ce)
    (hcur : lookupKey ce (platform?.getD ("undefined")) = some curOut) :
    relativeResolve reg entry platform? (some ("esm")) args resolved =
      .ext true (some (rewriteRel curOut outF)) ∧
    jsStartsWith (rewriteRel curOut outF) (".") = true ∧
    (rewriteRel curOut outF).data.all (fun c => c ≠ '\\') = true := by
  refine ⟨?_, rewriteRel_startsWith curOut outF, rewriteRel_no_backslash curOut outF⟩
  simp [relativeResolve, hres, hne, hreg, hout, houtT, hce, hcur, jsTruthyStr]

/-- C3 witness: with both entries registered for platform `node`,
importing `src/util.ts` from the `src/index.ts` esm task rewrites to
`./util.mjs`. -/
theorem claim_c3_witness :
    relativeResolve regTwoTasks ("/p/src/index.ts") (some ("node")) (some ("esm"))
      ⟨("./util"), ("/p/src")⟩ ("/p/src/util.ts") =
      .ext true (some (rewriteRel ("/p/lib/index.mjs") ("/p/lib/util.mjs"))) ∧
    jsStartsWith (rewriteRel ("/p/lib/index.mjs") ("/p/lib/util.mjs")) (".") = true ∧
    (rewriteRel ("/p/lib/index.mjs") ("/p/lib/util.mjs")).data.all (fun c => c ≠ '\\') = true :=
  claim_c3 regTwoTasks ("/p/src/index.ts") (some ("node"))
    ⟨("./util"), ("/p/src")⟩ ("/p/src/util.ts")
    [(("node"), ("/p/lib/util.mjs"))] [(("node"), ("/p/lib/index.mjs"))]
    ("/p/lib/util.mjs") ("/p/lib/index.mjs")
    (by decide) (by decide) (by decide) (by decide) (by decide) (by decide) (by decide)

/-- C5 (amended): when the match loop reaches a match whose computed
output file is already claimed, the loop's `return` ends the expansion of
that pattern: the colliding match and every remaining match of the same
pattern are skipped silently (no task, no claimed output file, no
registry entry; only the colliding match's binary marker, recorded before
the duplicate check, survives).  Matches processed before the duplicate
are unaffected. -/
theorem claim_c5 (ctx : Ctx) (p : Preset) (pre : Option String) (isBin : Bool)
    (oe : String) (st : St) (t : String) (rest : List String)
    (h : targetOutFile ctx oe t ∈ st.outFiles) :
    processTargets ctx p pre isBin oe st (t :: rest) = pushBin ctx isBin st t ∧
    (processTargets ctx p pre isBin oe st (t :: rest)).matrix = st.matrix ∧
    (processTargets ctx p pre isBin oe st (t :: rest)).outFiles = st.outFiles ∧
    (processTargets ctx p pre isBin oe st (t :: rest)).exports = st.exports := by
  have h' : targetOutFile ctx oe t ∈ (pushBin ctx isBin st t).outFiles := by
    rw [(pushBin_fields ctx isBin st t).2.1]
    exact h
  have he : processTargets ctx p pre isBin oe st (t :: rest) = pushBin ctx isBin st t := by
    unfold processTargets
    rw [if_pos h']
  refine ⟨he, ?_, ?_, ?_⟩ <;> rw [he]
  · exact (pushBin_fields ctx isBin st t).1
  · exact (pushBin_fields ctx isBin st t).2.1
  · exact (pushBin_fields ctx isBin st t).2.2

/-- C5 witness: with the output file of `a.ts` already claimed, the loop
over `[a.ts, b.ts]` stops at `a.ts` and leaves the state unchanged. -/
theorem claim_c5_witness :
    processTargets
      { cwd := ("/p"), name := ("demo"), rootDir := ("src"), outDir := ("lib"),
        outdir := ("/p/lib"), outbase := ("/p/src"), target := none, minify := none,
        sourceMap := none, define := [], glob := fun _ _ => [] }
      { platform := some ("node"), format := some ("cjs") } (some ("")) false (".js")
      { matrix := [], exports := [], outFiles := [("/p/lib/a.js")], binaries := [] }
      (("a.ts") :: [("b.ts")]) =
      pushBin
        { cwd := ("/p"), name := ("demo"), rootDir := ("src"), outDir := ("lib"),
          outdir := ("/p/lib"), outbase := ("/p/src"), target := none, minify := none,
          sourceMap := none, define := [], glob := fun _ _ => [] }
        false
        { matrix := [], exports := [], outFiles := [("/p/lib/a.js")], binaries := [] }
        ("a.ts") :=
  (claim_c5
    { cwd := ("/p"), name := ("demo"), rootDir := ("src"), outDir := ("lib"),
      outdir := ("/p/lib"), outbase := ("/p/src"), target := none, minify := none,
      sourceMap := none, define := [], glob := fun _ _ => [] }
    { platform := some ("node"), format := some ("cjs") } (some ("")) false (".js")
    { matrix := [], exports := [], outFiles := [("/p/lib/a.js")], binaries := [] }
    ("a.ts") [("b.ts")] (by decide)).1

/-- C4 (amended): a `types`/`typings` branch descends with the platform
cleared, and a non-duplicate matching source file then populates the
declaration-only (`types`) registry slot with the `name/prefix` public
specifier while still pushing one build task for the match, with its
platform unset (contrary to the claim, a declaration-only branch does
produce a BuildTask when a source file matches). -/
theorem claim_c4 (ctx : Ctx) (p : Preset) (pre : Option String) (oe : String)
    (st : St) (t : String) (hplat : p.platform = none) :
    (∀ (st' : St) (v : Exports) (rest : ExportsMap) (p' : Preset) (pr : String),
      addCondMap ctx st' (.cons ("types") v rest) p' pr =
        addCondMap ctx (addCond ctx st' v { p' with platform := none } pr) rest p' pr) ∧
    (processOne ctx p pre oe st t).matrix =
      st.matrix ++ [mkTask ctx p oe (jsSliceNeg t 0 (extname t).length) (nodeJoin [ctx.cwd, ctx.rootDir, t])] ∧
    lookupSlot (processOne ctx p pre oe st t).exports
      (nodeJoin [ctx.cwd, ctx.rootDir, t]) ("types") =
      some (ctx.name ++ ("/") ++ prefixStr pre) ∧
    (mkTask ctx p oe (jsSliceNeg t 0 (extname t).length) (nodeJoin [ctx.cwd, ctx.rootDir, t])).platform = none := by
  refine ⟨?_, processOne_matrix ctx p pre oe st t, ?_, ?_⟩
  · intro st' v rest p' pr
    rw [addCondMap]
    simp
  · simp [processOne, hplat, lookupSlot_setSlot_self]
  · simp [mkTask, hplat]

/-- C4 witness: the concrete `types` match `index.d.ts` yields a task
with platform unset and the `types` slot `demo/`. -/
theorem claim_c4_witness :
    (processOne
      { cwd := ("/p"), name := ("demo"), rootDir := ("src"), outDir := ("lib"),
        outdir := ("/p/lib"), outbase := ("/p/src"), target := none, minify := none,
        sourceMap := none, define := [], glob := fun _ _ => [] }
      { platform := none, format := some ("cjs") } (some ("")) (".ts")
      { matrix := [], exports := [], outFiles := [], binaries := [] }
      ("index.d.ts")).matrix =
      [] ++ [mkTask
        { cwd := ("/p"), name := ("demo"), rootDir := ("src"), outDir := ("lib"),
          outdir := ("/p/lib"), outbase := ("/p/src"), target := none, minify := none,
          sourceMap := none, define := [], glob := fun _ _ => [] }
        { platform := none, format := some ("cjs") } (".ts")
        (jsSliceNeg ("index.d.ts") 0 (extname ("index.d.ts")).length)
        (nodeJoin [("/p"), ("src"), ("index.d.ts")])] ∧
    lookupSlot (processOne
      { cwd := ("/p"), name := ("demo"), rootDir := ("src"), outDir := ("lib"),
        outdir := ("/p/lib"), outbase := ("/p/src"), target := none, minify := none,
        sourceMap := none, define := [], glob := fun _ _ => [] }
      { platform := none, format := some ("cjs") } (some ("")) (".ts")
      { matrix := [], exports := [], outFiles := [], binaries := [] }
      ("index.d.ts")).exports (nodeJoin [("/p"), ("src"), ("index.d.ts")]) ("types") =
      some (("demo") ++ ("/") ++ prefixStr (some (""))) :=
  ⟨(claim_c4
      { cwd := ("/p"), name := ("demo"), rootDir := ("src"), outDir := ("lib"),
        outdir := ("/p/lib"), outbase := ("/p/src"), target := none, minify := none,
        sourceMap := none, define := [], glob := fun _ _ => [] }
      { platform := none, format := some ("cjs") } (some ("")) (".ts")
      { matrix := [], exports := [], outFiles := [], binaries := [] }
      ("index.d.ts") rfl).2.1,
   (claim_c4
      { cwd := ("/p"), name := ("demo"), rootDir := ("src"), outDir := ("lib"),
        outdir := ("/p/lib"), outbase := ("/p/src"), target := none, minify := none,
        sourceMap := none, define := [], glob := fun _ _ => [] }
      { platform := none, format := some ("cjs") } (some ("")) (".ts")
      { matrix := [], exports := [], outFiles := [], binaries := [] }
      ("index.d.ts") rfl).2.2.1⟩

/-- A registered passthrough entry survives the rest of the loop (any
later write to the same key stores the same value). -/
theorem registerPassthroughs_keeps (ctx : Ctx) (ts : List String) (k : String) :
    ∀ st : St, lookupKey st.exports k = some [(("default"), k)] →
    lookupKey (registerPassthroughs ctx st ts).exports k = some [(("default"), k)] := by
  induction ts with
  | nil => intro st h; exact h
  | cons t rest ih =>
    intro st h
    unfold registerPassthroughs
    split
    · exact ih st h
    · apply ih
      show lookupKey (setDefaultEntry st.exports (nodeJoin [ctx.cwd, t])) k = _
      unfold setDefaultEntry
      by_cases hk : nodeJoin [ctx.cwd, t] = k
      · rw [hk, lookupKey_setKey_self]
      · rw [lookupKey_setKey_ne _ _ _ _ hk]
        exact h

/-- Every globbed file outside `rootDir` ends up registered as
`registry[file] = { default: file }`. -/
theorem registerPassthroughs_mem (ctx : Ctx) (ts : List String) :
    ∀ (st : St) (f : String), f ∈ ts →
    jsStartsWith (nodeRelative ctx.cwd ctx.rootDir f) ("../") = true →
    lookupKey (registerPassthroughs ctx st ts).exports (nodeJoin [ctx.cwd, f]) =
      some [(("default"), nodeJoin [ctx.cwd, f])] := by
  induction ts with
  | nil =>
    intro st f hf
    exact absurd hf (List.not_mem_nil f)
  | cons t rest ih =>
    intro st f hf hcond
    rcases List.mem_cons.1 hf with hf | hf
    · subst hf
      unfold registerPassthroughs
      rw [if_neg (by simp [hcond])]
      exact registerPassthroughs_keeps ctx rest _ _ (lookupKey_setKey_self _ _ _)
    · unfold registerPassthroughs
      split
      · exact ih st f hf hcond
      · exact ih _ f hf hcond

/-- C8 (amended): the implicit `package.json` passthrough runs exactly
when the manifest's `exports` field is JS-falsy — absent, or declared as
the empty string (so the claim's "no exports field at all" fails on the
empty-string edge); and an export pattern not rooted under the output
directory produces no build task and claims no output file, instead
registering each globbed file lying outside `rootDir` as
`registry[file] = { default: file }`. -/
theorem claim_c8 :
    (∀ (ctx : Ctx) (p : Preset) (m : PackageJson) (st : St), m.exports? = none →
      implicitManifestStep ctx p m st = addExport ctx st (some ("package.json")) p none false) ∧
    (∀ (ctx : Ctx) (p : Preset) (m : PackageJson) (st : St),
      m.exports? = some (.str ("")) →
      implicitManifestStep ctx p m st = addExport ctx st (some ("package.json")) p none false) ∧
    (∀ (ctx : Ctx) (p : Preset) (m : PackageJson) (st : St) (e : Exports),
      m.exports? = some e → e ≠ .str ("") → implicitManifestStep ctx p m st = st) ∧
    (∀ (ctx : Ctx) (st : St) (pat : String) (p : Preset) (pre : Option String) (b : Bool),
      pat ≠ ("") → jsStartsWith (stripDotSlash pat) (ctx.outDir ++ ("/")) = false →
      (addExport ctx st (some pat) p pre b).matrix = st.matrix ∧
      (addExport ctx st (some pat) p pre b).outFiles = st.outFiles ∧
      (∀ f ∈ ctx.glob (replaceStarOnce (stripDotSlash pat)) ctx.cwd,
        jsStartsWith (nodeRelative ctx.cwd ctx.rootDir f) ("../") = true →
        lookupKey (addExport ctx st (some pat) p pre b).exports (nodeJoin [ctx.cwd, f]) =
          some [(("default"), nodeJoin [ctx.cwd, f])])) := by
  refine ⟨?_, ?_, ?_, ?_⟩
  · intro ctx p m st h
    simp [implicitManifestStep, jsFalsyExports, h]
  · intro ctx p m st h
    simp [implicitManifestStep, jsFalsyExports, h]
  · intro ctx p m st e h hne
    cases e with
    | str s =>
      have hs : s ≠ ("") := fun hh => hne (by rw [hh])
      simp [implicitManifestStep, jsFalsyExports, h, hs]
    | map kvs =>
      simp [implicitManifestStep, jsFalsyExports, h]
  · intro ctx st pat p pre b hpat hstart
    have hrp : resolvePattern ctx st (stripDotSlash pat) =
        (registerPassthroughs ctx st (ctx.glob (replaceStarOnce (stripDotSlash pat)) ctx.cwd), none) := by
      unfold resolvePattern
      rw [if_pos (by simp [hstart])]
    have he : addExport ctx st (some pat) p pre b =
        registerPassthroughs ctx st (ctx.glob (replaceStarOnce (stripDotSlash pat)) ctx.cwd) := by
      simp only [addExport]
      rw [if_neg hpat, hrp]
    rw [he]
    refine ⟨(registerPassthroughs_fields ctx _ st).1, (registerPassthroughs_fields ctx _ st).2.1, ?_⟩
    intro f hf hcond
    exact registerPassthroughs_mem ctx _ st f hf hcond

/-- C8 witness: with no `exports` field the implicit passthrough runs,
and a concrete non-output-directory pattern registers the globbed
`package.json` without producing a task. -/
theorem claim_c8_witness :
    implicitManifestStep
      { cwd := ("/p"), name := ("demo"), rootDir := ("src"), outDir := ("lib"),
        outdir := ("/p/lib"), outbase := ("/p/src"), target := none, minify := none,
        sourceMap := none, define := [], glob := globImplicitDemo }
      { platform := some ("node"), format := some ("cjs") } { name := ("demo") }
      { matrix := [], exports := [], outFiles := [], binaries := [] } =
      addExport
        { cwd := ("/p"), name := ("demo"), rootDir := ("src"), outDir := ("lib"),
          outdir := ("/p/lib"), outbase := ("/p/src"), target := none, minify := none,
          sourceMap := none, define := [], glob := globImplicitDemo }
        { matrix := [], exports := [], outFiles := [], binaries := [] }
        (some ("package.json")) { platform := some ("node"), format := some ("cjs") } none false ∧
    lookupKey (addExport
        { cwd := ("/p"), name := ("demo"), rootDir := ("src"), outDir := ("lib"),
          outdir := ("/p/lib"), outbase := ("/p/src"), target := none, minify := none,
          sourceMap := none, define := [], glob := globImplicitDemo }
        { matrix := [], exports := [], outFiles := [], binaries := [] }
        (some ("package.json")) { platform := some ("node"), format := some ("cjs") } none false).exports
      (nodeJoin [("/p"), ("package.json")]) =
      some [(("default"), nodeJoin [("/p"), ("package.json")])] :=
  ⟨claim_c8.1
    { cwd := ("/p"), name := ("demo"), rootDir := ("src"), outDir := ("lib"),
      outdir := ("/p/lib"), outbase := ("/p/src"), target := none, minify := none,
      sourceMap := none, define := [], glob := globImplicitDemo }
    { platform := some ("node"), format := some ("cjs") } { name := ("demo") }
    { matrix := [], exports := [], outFiles := [], binaries := [] } rfl,
   (claim_c8.2.2.2
    { cwd := ("/p"), name := ("demo"), rootDir := ("src"), outDir := ("lib"),
      outdir := ("/p/lib"), outbase := ("/p/src"), target := none, minify := none,
      sourceMap := none, define := [], glob := globImplicitDemo }
    { matrix := [], exports := [], outFiles := [], binaries := [] }
    ("package.json") { platform := some ("node"), format := some ("cjs") } none false
    (by decide) (by decide)).2.2 ("package.json") (by decide) (by decide)⟩

end Dumble
